import Mathlib

/-
  Verification of pg_index_reclaim (contrib/pg_index_reclaim/pg_index_reclaim.c).

  Shallow embedding of the module's page model and its four components:
  leaf locator (find_leftmost_leaf), page analyzer and candidate selector
  (analyze_index_pages), merge executor (execute_merge) and the two
  SQL-callable entry points (pg_index_reclaim_execute / _analyze).

  Modelling conventions:
  - A B-tree page is a record; its line-pointer array is a list of
    `Item := Option Entry` (an unused line pointer is `none`, carrying
    lp_len = 0).  Offsets are 1-based in C; index i of the list is
    offset i+1.  P_NONE = 0, InvalidBlockNumber = 4294967295.
  - P_RIGHTMOST(opaque) is btpo_next = P_NONE, as in nbtree.h.
  - P_FIRSTDATAKEY is P_HIKEY (offset 1) on a rightmost page and
    P_FIRSTKEY (offset 2) otherwise; 0-based: 0 resp. 1.
  - Byte accounting uses BLCKSZ = 8192, SizeOfPageHeaderData = 24,
    MAXALIGN(sizeof(BTPageOpaqueData)) = 16, sizeof(ItemIdData) = 4.
    pd_upper - pd_lower (the raw hole) is `rawSpace`; PageGetFreeSpace
    subtracts one further line pointer.
  - C `double` arithmetic on usage percentages and the 0.9 headroom
    factor is modelled by exact rationals / the exact integer inequality
    10*x <= 9*y; for the integer operand ranges reachable here the IEEE
    double comparisons in the C code agree with the exact comparisons
    (the compared quantities are never within rounding distance of the
    boundary except where both are exactly representable).
  - Buffer locks are modelled by a ledger: each return path reports the
    multiset difference between the buffers it acquired and the buffers
    it released (in the C code's own release order).
  - Loops whose termination is in question (the leaf-level scan, the
    root descent) take explicit fuel and return `none` on exhaustion.
-/

namespace PgIndexReclaim

/-- MAXALIGN rounds a byte count up to the next multiple of 8. -/
def MAXALIGN (n : Nat) : Nat := 8 * ((n + 7) / 8)

/-- An index tuple: an identifying payload, its byte length
(ItemIdGetLength), and the downlink block number it carries when it
lives on an internal page (BTreeTupleGetDownLink). -/
structure Entry where
  val : Nat
  len : Nat
  link : Nat
deriving DecidableEq

/-- A line-pointer slot: `none` when ItemIdIsUsed is false. -/
abbrev Item := Option Entry

/-- A B-tree page as the module reads it: PageIsNew flag, page-size
validity, BTPageOpaque fields (level, BTP flags, btpo_prev, btpo_next,
btpo_cycleid) and the line-pointer array. -/
structure BTPage where
  isNew : Bool
  sizeOk : Bool
  leaf : Bool
  level : Nat
  deleted : Bool
  halfDead : Bool
  prev : Nat
  next : Nat
  cycleId : Nat
  items : List Item
deriving DecidableEq

/-- The buffer manager: block number to page contents. -/
abbrev Store := Nat → BTPage

/-- 0-based index of P_FIRSTDATAKEY: 0 on a rightmost page (no high
key), 1 otherwise (offset 1 holds the high key). -/
def firstDataIdx (p : BTPage) : Nat := if p.next = 0 then 0 else 1

/-- The slots from P_FIRSTDATAKEY to PageGetMaxOffsetNumber. -/
def dataItems (p : BTPage) : List Item := p.items.drop (firstDataIdx p)

/-- The used (live) entries of the data region, in offset order. -/
def liveEntries (p : BTPage) : List Entry := (dataItems p).filterMap id

/-- ItemIdGetLength: 0 on an unused line pointer. -/
def itemLen : Item → Nat
  | some e => e.len
  | none => 0

/-- Bytes a slot consumes inside the page: aligned tuple storage plus
its 4-byte line pointer (an unused pointer keeps only the pointer). -/
def itemFootprint : Item → Nat
  | some e => MAXALIGN e.len + 4
  | none => 4

/-- Total bytes consumed by the line-pointer array and tuple storage. -/
def pageUsedRaw (p : BTPage) : Nat := (p.items.map itemFootprint).sum

/-- BLCKSZ - SizeOfPageHeaderData - MAXALIGN(sizeof(BTPageOpaqueData)). -/
def usableCapacity : Nat := 8192 - 24 - MAXALIGN 16

/-- pd_upper - pd_lower: the raw hole between line pointers and tuples. -/
def rawSpace (p : BTPage) : Nat := usableCapacity - pageUsedRaw p

/-- PageGetFreeSpace: the raw hole minus room for one more line
pointer (clamped at zero, which Nat subtraction gives for free). -/
def pageGetFreeSpace (p : BTPage) : Nat := rawSpace p - 4

/-- Sum of MAXALIGN(ItemIdGetLength) over used slots only, as the
capacity re-check in execute_merge computes it (unused slots are
skipped with a warning). -/
def usedSizeSum (its : List Item) : Nat :=
  ((its.filterMap id).map (fun e => MAXALIGN e.len)).sum

/-- Sum of MAXALIGN(ItemIdGetLength) over all data slots, as the
analyzer computes used_space (it does not test ItemIdIsUsed; an unused
pointer contributes MAXALIGN 0 = 0). -/
def analyzerUsedSpace (its : List Item) : Nat :=
  (its.map (fun it => MAXALIGN (itemLen it))).sum

/-- Bytes needed to append the given entries one by one with
PageAddItem: aligned storage plus a line pointer each. -/
def entriesFootprint (es : List Entry) : Nat :=
  (es.map (fun e => MAXALIGN e.len + 4)).sum

/-- Unsigned 64-bit (Size) subtraction, as in
`total_available -= MAXALIGN(avg_item_size)`. -/
def sizeSub (a b : Nat) : Nat := (((a : Int) - (b : Int)) % (2 ^ 64 : Int)).toNat

/-- PageAddItem with InvalidOffsetNumber: append at the end of the
line-pointer array when the aligned tuple plus a new line pointer fit
in the raw hole; otherwise fail (InvalidOffsetNumber). -/
def pageAddItemEnd (p : BTPage) (e : Entry) : Option BTPage :=
  if MAXALIGN e.len + 4 ≤ rawSpace p then some { p with items := p.items ++ [some e] }
  else none

/-- The Step-1 insertion loop of the critical section: append each
collected left-page entry to the right page; a failed PageAddItem is
logged and skipped ("Continue trying other items").  Returns the page
and items_added. -/
def addLoop : BTPage → List Entry → BTPage × Nat
  | p, [] => (p, 0)
  | p, e :: es =>
    match pageAddItemEnd p e with
    | some p1 => let r := addLoop p1 es; (r.1, r.2 + 1)
    | none => addLoop p es

/-- The zero-width truncated tuple written as the half-dead page's
high key: t_info = sizeof(IndexTupleData) = 8, top parent set to
InvalidBlockNumber. -/
def dummyHighKey : Entry := { val := 0, len := 8, link := 4294967295 }

/-- Write the dummy high key into P_HIKEY: overwrite the slot when
offset 1 exists and is used (PageIndexTupleOverwrite), else insert a
new slot at offset 1 (PageAddItem); on failure only a warning is
logged and the page is left as is. -/
def setDummyHighKey (p : BTPage) : BTPage :=
  match p.items with
  | some e :: rest =>
    if MAXALIGN dummyHighKey.len ≤ MAXALIGN e.len + rawSpace p
    then { p with items := some dummyHighKey :: rest }
    else p
  | _ =>
    if MAXALIGN dummyHighKey.len + 4 ≤ rawSpace p
    then { p with items := some dummyHighKey :: p.items }
    else p

/-- Result of execute_merge: the returned boolean, the buffer pool
after the call, and the lock ledger (buffers acquired but never
released; the C code always empties it). -/
structure MergeResult where
  ok : Bool
  store : Store
  held : List Nat

/-- The right-sibling buffer segment of the lock ledger: acquired only
when the right page is not rightmost. -/
def rsHeld (s : Store) (rb : Nat) : List Nat :=
  if (s rb).next ≠ 0 then [(s rb).next] else []

/-- The left-sibling buffer segment of the lock ledger: acquired only
when the left page has a left sibling. -/
def lsHeld (s : Store) (lb : Nat) : List Nat :=
  if (s lb).prev ≠ 0 then [(s lb).prev] else []

/-- The right page after the critical section: the left page's live
entries appended in order by the PageAddItem loop (its own high key
untouched), and btpo_prev relinked to the left page's btpo_prev. -/
def mergedRight (s : Store) (lb rb : Nat) : BTPage :=
  { (addLoop (s rb) (liveEntries (s lb))).1 with prev := (s lb).prev }

/-- The left page after the critical section: used data slots removed
by PageIndexMultiDelete, BTP_HALF_DEAD set, the dummy high key written
into P_HIKEY, and btpo_cycleid cleared. -/
def clearedLeft (s : Store) (lb : Nat) : BTPage :=
  let lp := s lb
  let fd := firstDataIdx lp
  let lpDel := { lp with
    items := lp.items.take fd ++ (lp.items.drop fd).filter (fun it => Option.isNone it) }
  { setDummyHighKey { lpDel with halfDead := true } with cycleId := 0 }

/-- The committed part of execute_merge, entered only after every
validation passed (START_CRIT_SECTION .. END_CRIT_SECTION plus the
final unlock sequence): append the left page's live entries to the
right page, keep the right page's high key, relink btpo_prev of the
right page and btpo_next of the left sibling, multi-delete the left
page's used data slots, mark it half-dead with a dummy high key and a
cleared cycle id, and release every buffer in reverse lock order. -/
def mergeSuccess (s : Store) (lb rb : Nat) : MergeResult :=
  { ok := true,
    store := fun b =>
      if b = lb then clearedLeft s lb
      else if b = rb then mergedRight s lb rb
      else if (s lb).prev ≠ 0 ∧ b = (s lb).prev then { s ((s lb).prev) with next := rb }
      else s b,
    held := ([lb, rb] ++ rsHeld s rb ++ lsHeld s lb).diff
              (lsHeld s lb ++ rsHeld s rb ++ [rb, lb]) }

/-- execute_merge: lock and validate the left page, the right page and
the sibling relationship, lock and validate the optional neighbours,
re-check capacity against the right page's current free space, collect
the left page's used slots, and only then run the critical section.
Every validation failure returns false having released exactly the
buffers acquired so far, in the C code's release order. -/
def execMerge (s : Store) (lb rb : Nat) : MergeResult :=
  if (s lb).isNew then ⟨false, s, List.diff [lb] [lb]⟩
  else if (s lb).leaf = false then ⟨false, s, List.diff [lb] [lb]⟩
  else if (s lb).deleted then ⟨false, s, List.diff [lb] [lb]⟩
  else if (s lb).halfDead then ⟨false, s, List.diff [lb] [lb]⟩
  else if (s rb).isNew then ⟨false, s, List.diff [lb, rb] [rb, lb]⟩
  else if (s rb).leaf = false then ⟨false, s, List.diff [lb, rb] [rb, lb]⟩
  else if (s rb).deleted then ⟨false, s, List.diff [lb, rb] [rb, lb]⟩
  else if (s rb).halfDead then ⟨false, s, List.diff [lb, rb] [rb, lb]⟩
  else if (s rb).prev ≠ lb then ⟨false, s, List.diff [lb, rb] [rb, lb]⟩
  else if (s rb).next ≠ 0 ∧ (s (s rb).next).prev ≠ rb then
    ⟨false, s, List.diff [lb, rb, (s rb).next] [(s rb).next, rb, lb]⟩
  else if (s lb).prev ≠ 0 ∧ (s (s lb).prev).next ≠ lb then
    ⟨false, s, List.diff ([lb, rb] ++ rsHeld s rb ++ [(s lb).prev])
                          ([(s lb).prev] ++ rsHeld s rb ++ [rb, lb])⟩
  else if pageGetFreeSpace (s rb) <
            usedSizeSum (dataItems (s lb)) + usedSizeSum (dataItems (s rb)) then
    ⟨false, s, List.diff ([lb, rb] ++ rsHeld s rb ++ lsHeld s lb)
                          (lsHeld s lb ++ rsHeld s rb ++ [rb, lb])⟩
  else if (dataItems (s lb)).length = 0 then
    ⟨false, s, List.diff ([lb, rb] ++ rsHeld s rb ++ lsHeld s lb)
                          (lsHeld s lb ++ rsHeld s rb ++ [rb, lb])⟩
  else if liveEntries (s lb) = [] then
    ⟨false, s, List.diff ([lb, rb] ++ rsHeld s rb ++ lsHeld s lb)
                          (lsHeld s lb ++ rsHeld s rb ++ [rb, lb])⟩
  else mergeSuccess s lb rb

/-- The conjunction of every check a successful execute_merge passed
(read off the source's abort conditions in order). -/
def mergeChecksPass (s : Store) (lb rb : Nat) : Prop :=
  (s lb).isNew = false ∧ (s lb).leaf = true ∧ (s lb).deleted = false ∧ (s lb).halfDead = false ∧
  (s rb).isNew = false ∧ (s rb).leaf = true ∧ (s rb).deleted = false ∧ (s rb).halfDead = false ∧
  (s rb).prev = lb ∧
  ((s rb).next = 0 ∨ (s (s rb).next).prev = rb) ∧
  ((s lb).prev = 0 ∨ (s (s lb).prev).next = lb) ∧
  usedSizeSum (dataItems (s lb)) + usedSizeSum (dataItems (s rb)) ≤ pageGetFreeSpace (s rb) ∧
  liveEntries (s lb) ≠ []

/-- A precondition violation detectable before the critical section,
as enumerated by the abort paths of stages 1-3 of execute_merge. -/
def precondViolation (s : Store) (lb rb : Nat) : Prop :=
  (s lb).isNew = true ∨ (s lb).leaf = false ∨ (s lb).deleted = true ∨ (s lb).halfDead = true ∨
  (s rb).isNew = true ∨ (s rb).leaf = false ∨ (s rb).deleted = true ∨ (s rb).halfDead = true ∨
  (s rb).prev ≠ lb ∨
  ((s rb).next ≠ 0 ∧ (s (s rb).next).prev ≠ rb) ∨
  ((s lb).prev ≠ 0 ∧ (s (s lb).prev).next ≠ lb) ∨
  pageGetFreeSpace (s rb) < usedSizeSum (dataItems (s lb)) + usedSizeSum (dataItems (s rb))

/-- Per-page statistics captured by the analyzer (struct PageAnalysis). -/
structure PageAnalysis where
  blockno : Nat
  is_leaf : Bool
  is_rightmost : Bool
  is_deleted : Bool
  is_halfdead : Bool
  used_space : Nat
  free_space : Nat
  item_count : Nat
  usage_pct : ℚ
deriving DecidableEq

/-- A selector output row (struct MergeCandidate). -/
structure MergeCandidate where
  left_page : Nat
  right_page : Nat
  left_usage_pct : ℚ
  right_usage_pct : ℚ
  total_items : Nat
  estimated_space : Nat
  can_merge : Bool
deriving DecidableEq

/-- The PageAnalysis the scan stores for a live leaf page: item_count
and used_space over the data region without an ItemIdIsUsed test,
free space from PageGetFreeSpace, usage as used/usable*100. -/
def mkStat (blk : Nat) (p : BTPage) : PageAnalysis :=
  let used := analyzerUsedSpace (dataItems p)
  { blockno := blk,
    is_leaf := true,
    is_rightmost := decide (p.next = 0),
    is_deleted := false,
    is_halfdead := false,
    item_count := (dataItems p).length,
    used_space := used,
    free_space := pageGetFreeSpace p,
    usage_pct := if 0 < usableCapacity then ((used : ℚ) / (usableCapacity : ℚ)) * 100 else 0 }

/-- The leaf-level scan of analyze_index_pages: walk btpo_next from
the leftmost leaf while the block is not P_NONE and fewer than
num_pages stats were stored; stop on a new page, a bad page size or a
non-leaf page; pass over deleted and half-dead pages without storing a
stat (and, exactly as in the source, without counting them against the
page cap).  Fuel exhaustion returns none. -/
def scanLoop (s : Store) (numPages : Nat) : Nat → Nat → List PageAnalysis → Nat → Option (List PageAnalysis)
  | _, _, _, 0 => none
  | blk, total, acc, fuel + 1 =>
    if blk = 0 ∨ numPages ≤ total then some acc
    else
      let p := s blk
      if p.isNew then some acc
      else if p.sizeOk = false then some acc
      else if p.deleted then scanLoop s numPages p.next total acc fuel
      else if p.leaf = false then some acc
      else if p.halfDead then scanLoop s numPages p.next total acc fuel
      else scanLoop s numPages p.next (total + 1) (acc ++ [mkStat blk p]) fuel

/-- First downlink of an internal page: the item at P_FIRSTDATAKEY if
it exists, is used and carries a valid block number. -/
def firstDownlink (p : BTPage) : Option Nat :=
  match p.items[firstDataIdx p]? with
  | some (some e) => if e.link = 4294967295 then none else some e.link
  | _ => none

/-- The descent loop of find_leftmost_leaf: from the root, follow the
first downlink of each internal page; stop with P_NONE (0) on a new,
deleted or malformed page; stop with the block number on a leaf. -/
def descendToLeftmost (s : Store) : Nat → Nat → Option Nat
  | _, 0 => none
  | blk, fuel + 1 =>
    let p := s blk
    if p.isNew ∨ p.deleted then some 0
    else if p.leaf then some blk
    else
      match firstDownlink p with
      | none => some 0
      | some child => descendToLeftmost s child fuel

/-- find_leftmost_leaf: P_NONE when the metapage has no root,
otherwise the descent from the root. -/
def findLeftmostLeaf (s : Store) (root : Nat) (fuel : Nat) : Option Nat :=
  if root = 0 then some 0 else descendToLeftmost s root fuel

/-- Estimated high-key footprint the selector subtracts from the
usable capacity: MAXALIGN of the right page's average item size
(integer division; 0 when item_count = 0), only when the right page is
not rightmost. -/
def hkFootprint (r : PageAnalysis) : Nat :=
  if r.is_rightmost then 0
  else MAXALIGN (if 0 < r.item_count then r.used_space / r.item_count else 0)

/-- The selector's per-left-page step: skip rightmost pages, re-read
the left page's current btpo_next from the store, look the right
sibling up in the stat list (first match), skip deleted/half-dead
pairs and pairs where both usages strictly exceed max_pct_to_merge,
then emit the candidate with
can_merge := combined_used <= total_available * 0.9,
modelled exactly as 10*combined <= 9*available. -/
def considerPair (s : Store) (pages : List PageAnalysis) (maxPct : Int) (l : PageAnalysis) :
    Option MergeCandidate :=
  if l.is_rightmost then none
  else if (s l.blockno).isNew then none
  else
    let rbn := (s l.blockno).next
    if rbn = 0 then none
    else
      match pages.find? (fun st => st.blockno == rbn) with
      | none => none
      | some r =>
        if l.is_deleted ∨ l.is_halfdead ∨ r.is_deleted ∨ r.is_halfdead then none
        else if l.usage_pct > (maxPct : ℚ) ∧ r.usage_pct > (maxPct : ℚ) then none
        else
          let combined := l.used_space + r.used_space
          let avail := sizeSub usableCapacity (hkFootprint r)
          some { left_page := l.blockno,
                 right_page := rbn,
                 left_usage_pct := l.usage_pct,
                 right_usage_pct := r.usage_pct,
                 total_items := l.item_count + r.item_count,
                 estimated_space := combined,
                 can_merge := decide (10 * combined ≤ 9 * avail) }

/-- The candidate-construction pass over the stored stats, in order. -/
def buildCandidates (s : Store) (pages : List PageAnalysis) (maxPct : Int) :
    List MergeCandidate :=
  pages.filterMap (considerPair s pages maxPct)

/-- analyze_index_pages: nothing to do with only a metapage; find the
leftmost leaf (an unfound leaf leaves the candidate list empty); run
the leaf scan; build candidates from the stored stats. -/
def analyzeIndexPages (s : Store) (numPages root : Nat) (maxPct : Int) (fuel : Nat) :
    Option (List MergeCandidate) :=
  if numPages ≤ 1 then some []
  else
    match findLeftmostLeaf s root fuel with
    | none => none
    | some 0 => some []
    | some lm =>
      (scanLoop s numPages lm 0 [] fuel).map (fun pages => buildCandidates s pages maxPct)

/-- Result of the candidate loop in pg_index_reclaim_execute. -/
structure LoopOut where
  store : Store
  attempts : Nat
  merged : Nat
  reclaimed : Int
  invocations : List (Nat × Nat)

/-- The candidate loop of pg_index_reclaim_execute: break once
merges_attempted reaches MAX_MERGES_PER_EXECUTION = 1; invoke
execute_merge only on candidates with can_merge; count a merge and add
BLCKSZ - estimated_space to space_reclaimed only when it returns true.
`invocations` records each (left, right) pair passed to the executor. -/
def executeLoop (s : Store) : List MergeCandidate → Nat → Nat → Int → LoopOut
  | [], att, merged, recl => ⟨s, att, merged, recl, []⟩
  | c :: rest, att, merged, recl =>
    if 1 ≤ att then ⟨s, att, merged, recl, []⟩
    else if c.can_merge then
      let r := execMerge s c.left_page c.right_page
      let out := executeLoop r.store rest (att + 1)
                   (merged + if r.ok then 1 else 0)
                   (recl + if r.ok then (8192 : Int) - (c.estimated_space : Int) else 0)
      { out with invocations := (c.left_page, c.right_page) :: out.invocations }
    else executeLoop s rest att merged recl

/-- Configuration errors raised by the entry points. -/
inductive ReclaimError where
  | invalidParam : ReclaimError
  | wrongType : ReclaimError
deriving DecidableEq

/-- Outcome of an entry point: an error raised to the caller, fuel
exhaustion of the embedded loops, or a normal result. -/
inductive EntryResult (α : Type) where
  | err : ReclaimError → EntryResult α
  | timeout : EntryResult α
  | ok : α → EntryResult α
deriving DecidableEq

/-- Observable outcome of pg_index_reclaim_execute: its result row
(pages_merged, space_reclaimed), whether the relation-level lock of
index_open was ever taken, and the executor invocations performed. -/
structure ExecOut where
  result : EntryResult (Nat × Int)
  indexLocked : Bool
  invocations : List (Nat × Nat)
deriving DecidableEq

/-- Observable outcome of pg_index_reclaim_analyze. -/
structure AnalyzeOut where
  result : EntryResult (List MergeCandidate)
  indexLocked : Bool
deriving DecidableEq

/-- The index relation as the entry points see it. -/
structure IndexEnv where
  store : Store
  numPages : Nat
  root : Nat
  isBtree : Bool

/-- pg_index_reclaim_execute: reject max_pct_to_merge outside [1,100]
before index_open; reject a non-B-tree after opening; run the
analysis; run the candidate loop; return pages_merged and
space_reclaimed. -/
def pgIndexReclaimExecuteModel (env : IndexEnv) (maxPct : Int) (fuel : Nat) : ExecOut :=
  if maxPct < 1 ∨ 100 < maxPct then ⟨.err .invalidParam, false, []⟩
  else if env.isBtree = false then ⟨.err .wrongType, true, []⟩
  else
    match analyzeIndexPages env.store env.numPages env.root maxPct fuel with
    | none => ⟨.timeout, true, []⟩
    | some cands =>
      let out := executeLoop env.store cands 0 0 0
      ⟨.ok (out.merged, out.reclaimed), true, out.invocations⟩

/-- pg_index_reclaim_analyze: reject max_pct_to_merge outside [1,100]
before index_open; reject a non-B-tree after opening; return the full
candidate list. -/
def pgIndexReclaimAnalyzeModel (env : IndexEnv) (maxPct : Int) (fuel : Nat) : AnalyzeOut :=
  if maxPct < 1 ∨ 100 < maxPct then ⟨.err .invalidParam, false⟩
  else if env.isBtree = false then ⟨.err .wrongType, true⟩
  else
    match analyzeIndexPages env.store env.numPages env.root maxPct fuel with
    | none => ⟨.timeout, true⟩
    | some cands => ⟨.ok cands, true⟩

/-- Feasibility condition in the spec's own words, for comparison with
the code's can_merge: combined used bytes at most 0.9 times the usable
capacity reduced (when the right page is not rightmost) by the right
page's average entry size, read literally as the exact quotient. -/
def feasibleClaimC6 (l r : PageAnalysis) : Prop :=
  ((l.used_space + r.used_space : Nat) : ℚ) ≤
    ((usableCapacity : ℚ) -
      (if r.is_rightmost then 0 else (r.used_space : ℚ) / (r.item_count : ℚ))) * (9 / 10)

/-- Total live entries over a set of blocks, counting only pages that
are leaves and not half-dead. -/
def totalLiveEntries (s : Store) (blocks : List Nat) : Nat :=
  (blocks.map (fun b =>
    if (s b).leaf = true ∧ (s b).halfDead = false then (liveEntries (s b)).length else 0)).sum

instance decMergeChecksPass (s : Store) (lb rb : Nat) : Decidable (mergeChecksPass s lb rb) := by
  unfold mergeChecksPass; infer_instance

instance decPrecondViolation (s : Store) (lb rb : Nat) : Decidable (precondViolation s lb rb) := by
  unfold precondViolation; infer_instance

instance decFeasibleClaimC6 (l r : PageAnalysis) : Decidable (feasibleClaimC6 l r) := by
  unfold feasibleClaimC6; infer_instance

/-- An uninitialized placeholder page. -/
def defPage : BTPage :=
  { isNew := true, sizeOk := true, leaf := false, level := 0, deleted := false,
    halfDead := false, prev := 0, next := 0, cycleId := 0, items := [] }

/-- A live, well-formed leaf page with the given sibling links and
line-pointer array. -/
def leafPage (prev next : Nat) (items : List Item) : BTPage :=
  { isNew := false, sizeOk := true, leaf := true, level := 0, deleted := false,
    halfDead := false, prev := prev, next := next, cycleId := 0, items := items }

/-- A used slot holding a tuple with payload v and length l. -/
def uItem (v l : Nat) : Item := some { val := v, len := l, link := 0 }

/-- Two adjacent leaves: block 1 holds a high key and one 8-byte entry
(payload 10), block 2 is the rightmost leaf with one 8-byte entry
(payload 20). -/
def c1Store : Store := fun b =>
  if b = 1 then leafPage 0 2 [uItem 99 8, uItem 10 8]
  else if b = 2 then leafPage 1 0 [uItem 20 8]
  else defPage

/-- Entry-conservation failing input: block 1 is a leaf with a high
key and 500 8-byte entries; block 2 is an emptied leaf holding only a
2704-byte high key (raw hole 5444 bytes, PageGetFreeSpace 5440);
block 3 is its right sibling.  The executor's capacity re-check
passes (4000 <= 5440) because it ignores the 4 bytes of line pointer
each moved entry needs, but only 453 of the 500 PageAddItem calls fit. -/
def c2Store : Store := fun b =>
  if b = 1 then leafPage 0 2 (uItem 1000 8 :: (List.range 500).map (fun i => uItem i 8))
  else if b = 2 then leafPage 1 3 [uItem 999 2704]
  else if b = 3 then leafPage 2 0 [uItem 7 8]
  else defPage

/-- Scan-termination failing input: block 1 is a live leaf whose
btpo_next is block 2; block 2 is a deleted page whose btpo_next points
back to itself (a corrupted sibling cycle made of skipped pages).  The
index has 4 pages. -/
def c3Store : Store := fun b =>
  if b = 1 then leafPage 0 2 [uItem 99 8, uItem 1 8]
  else if b = 2 then { leafPage 2 2 [] with deleted := true }
  else defPage

/-- A store in which block 2's btpo_prev is 7, not 1: the stale
right-sibling configuration of the precondition-violation claim. -/
def c4Store : Store := fun b =>
  if b = 1 then leafPage 0 2 [uItem 99 8, uItem 10 8]
  else if b = 2 then leafPage 7 0 [uItem 20 8]
  else defPage

/-- Store for the threshold-boundary witness: the left page of the
pair is block 10, whose current btpo_next is block 11. -/
def c5Store : Store := fun b =>
  if b = 10 then { defPage with isNew := false, leaf := true, next := 11 } else defPage

/-- Stats of two pages both at exactly 50 percent usage. -/
def c5LeftAt50 : PageAnalysis :=
  { blockno := 10, is_leaf := true, is_rightmost := false, is_deleted := false,
    is_halfdead := false, used_space := 4076, free_space := 4000, item_count := 500,
    usage_pct := 50 }

/-- Right-page stat at exactly 50 percent usage. -/
def c5RightAt50 : PageAnalysis :=
  { blockno := 11, is_leaf := true, is_rightmost := true, is_deleted := false,
    is_halfdead := false, used_space := 4076, free_space := 4000, item_count := 500,
    usage_pct := 50 }

/-- Left-page stat at 51 percent usage (one unit above the threshold). -/
def c5LeftAt51 : PageAnalysis :=
  { blockno := 10, is_leaf := true, is_rightmost := false, is_deleted := false,
    is_halfdead := false, used_space := 4157, free_space := 4000, item_count := 500,
    usage_pct := 51 }

/-- Right-page stat at 51 percent usage. -/
def c5RightAt51 : PageAnalysis :=
  { blockno := 11, is_leaf := true, is_rightmost := true, is_deleted := false,
    is_halfdead := false, used_space := 4157, free_space := 4000, item_count := 500,
    usage_pct := 51 }

/-- Left-page stat for the feasibility-formula counterexample: 7280
used bytes, usage below the 90 percent threshold. -/
def lstatC6 : PageAnalysis :=
  { blockno := 2, is_leaf := true, is_rightmost := false, is_deleted := false,
    is_halfdead := false, used_space := 7280, free_space := 800, item_count := 910,
    usage_pct := 89 }

/-- Right-page stat for the feasibility-formula counterexample: 48
used bytes over 5 items, so the average item size is 48/5 = 9 by
integer division and the code subtracts MAXALIGN 9 = 16, while the
spec's formula subtracts the average itself. -/
def rstatC6 : PageAnalysis :=
  { blockno := 3, is_leaf := true, is_rightmost := false, is_deleted := false,
    is_halfdead := false, used_space := 48, free_space := 8000, item_count := 5,
    usage_pct := 1 }

/-- Store for the feasibility-formula counterexample: the left page's
current btpo_next is block 3. -/
def storeC6 : Store := fun b =>
  if b = 2 then { defPage with isNew := false, leaf := true, next := 3 } else defPage

/-- Stat list for the feasibility-formula counterexample. -/
def pagesC6 : List PageAnalysis := [lstatC6, rstatC6]

/-- The candidate the selector emits on the counterexample input. -/
def candC6 : MergeCandidate :=
  { left_page := 2, right_page := 3, left_usage_pct := 89,
    right_usage_pct := 1, total_items := 915, estimated_space := 7328,
    can_merge := false }

/-- Store for the capacity-re-check witness: the left page holds one
9000-byte entry, far larger than the right page's free space. -/
def c8Store : Store := fun b =>
  if b = 1 then leafPage 0 2 [uItem 99 8, uItem 5 9000]
  else if b = 2 then leafPage 1 0 []
  else defPage

/-- Store for the empty-left-page witness: block 1's only slot is its
high key, so it has zero live data entries. -/
def c10Store : Store := fun b =>
  if b = 1 then leafPage 0 2 [uItem 99 8]
  else if b = 2 then leafPage 1 0 [uItem 20 8]
  else defPage

/-- A minimal environment whose index has only a metapage. -/
def env9 : IndexEnv := ⟨fun _ => defPage, 1, 0, true⟩

/-- An arbitrary well-typed environment for the parameter-check
witness. -/
def env7 : IndexEnv := ⟨fun _ => defPage, 8, 3, true⟩

/-! Helper lemmas about the lock ledger. -/

/-- Removing the elements of a permutation of a list from that list
leaves nothing. -/
theorem diff_perm_nil : ∀ (m l : List Nat), l.Perm m → l.diff m = []
  | [], _, h => by simp [h.eq_nil]
  | a :: t, l, h => by
      rcases List.cons_perm_iff_perm_erase.mp h.symm with ⟨_, ht⟩
      rw [List.diff_cons]
      exact diff_perm_nil t (l.erase a) ht.symm

/-- A list minus its own reversal is empty: releasing buffers in
reverse acquisition order empties the ledger. -/
theorem diff_reverse_nil (l : List Nat) : l.diff l.reverse = [] :=
  diff_perm_nil _ _ (List.reverse_perm l).symm

/-- The general ledger shape of execute_merge: two mandatory buffers
plus two optional sibling segments, released in reverse order. -/
theorem ledger_nil (a b : Nat) (X Y : List Nat) (hX : X.reverse = X) (hY : Y.reverse = Y) :
    ([a, b] ++ X ++ Y).diff (Y ++ X ++ [b, a]) = [] := by
  have h : Y ++ X ++ [b, a] = ([a, b] ++ X ++ Y).reverse := by
    simp [List.reverse_append, hX, hY]
  rw [h]
  exact diff_reverse_nil _

/-- An optional one-buffer segment is its own reversal. -/
theorem optHeld_reverse (c : Prop) [Decidable c] (x : Nat) :
    (if c then [x] else []).reverse = (if c then [x] else []) := by
  split <;> rfl

/-- The right-sibling segment is its own reversal. -/
theorem rsHeld_reverse (s : Store) (rb : Nat) : (rsHeld s rb).reverse = rsHeld s rb :=
  optHeld_reverse _ _

/-- The left-sibling segment is its own reversal. -/
theorem lsHeld_reverse (s : Store) (lb : Nat) : (lsHeld s lb).reverse = lsHeld s lb :=
  optHeld_reverse _ _

/-- Ledger of the aborts that hold exactly the two merge pages. -/
theorem ledger2_nil (a b : Nat) : List.diff [a, b] [b, a] = [] := by
  simpa using ledger_nil a b [] [] rfl rfl

/-- Ledger of the abort that also holds the right sibling. -/
theorem ledger3_nil (a b x : Nat) : List.diff [a, b, x] [x, b, a] = [] := by
  simpa using ledger_nil a b [x] [] rfl rfl

/-! The master case split of execute_merge: either every validation
passed and the call runs the critical section, or it returns false
with the store untouched and the lock ledger empty. -/

/-- execute_merge either passes every validation and equals its
critical-section result, or returns false with no mutation and all
acquired locks released. -/
theorem execMerge_spec (s : Store) (lb rb : Nat) :
    (mergeChecksPass s lb rb ∧ execMerge s lb rb = mergeSuccess s lb rb) ∨
    execMerge s lb rb = ⟨false, s, []⟩ := by
  unfold execMerge
  by_cases h1 : (s lb).isNew = true
  · rw [if_pos h1]; right
    rw [show List.diff [lb] [lb] = [] from by simpa using diff_reverse_nil [lb]]
  · rw [if_neg h1]
    by_cases h2 : (s lb).leaf = false
    · rw [if_pos h2]; right
      rw [show List.diff [lb] [lb] = [] from by simpa using diff_reverse_nil [lb]]
    · rw [if_neg h2]
      by_cases h3 : (s lb).deleted = true
      · rw [if_pos h3]; right
        rw [show List.diff [lb] [lb] = [] from by simpa using diff_reverse_nil [lb]]
      · rw [if_neg h3]
        by_cases h4 : (s lb).halfDead = true
        · rw [if_pos h4]; right
          rw [show List.diff [lb] [lb] = [] from by simpa using diff_reverse_nil [lb]]
        · rw [if_neg h4]
          by_cases h5 : (s rb).isNew = true
          · rw [if_pos h5]; right; rw [ledger2_nil]
          · rw [if_neg h5]
            by_cases h6 : (s rb).leaf = false
            · rw [if_pos h6]; right; rw [ledger2_nil]
            · rw [if_neg h6]
              by_cases h7 : (s rb).deleted = true
              · rw [if_pos h7]; right; rw [ledger2_nil]
              · rw [if_neg h7]
                by_cases h8 : (s rb).halfDead = true
                · rw [if_pos h8]; right; rw [ledger2_nil]
                · rw [if_neg h8]
                  by_cases h9 : (s rb).prev ≠ lb
                  · rw [if_pos h9]; right; rw [ledger2_nil]
                  · rw [if_neg h9]
                    by_cases h10 : (s rb).next ≠ 0 ∧ (s (s rb).next).prev ≠ rb
                    · rw [if_pos h10]; right; rw [ledger3_nil]
                    · rw [if_neg h10]
                      by_cases h11 : (s lb).prev ≠ 0 ∧ (s (s lb).prev).next ≠ lb
                      · rw [if_pos h11]; right
                        rw [ledger_nil lb rb (rsHeld s rb) [(s lb).prev]
                              (rsHeld_reverse s rb) rfl]
                      · rw [if_neg h11]
                        by_cases h12 : pageGetFreeSpace (s rb) <
                            usedSizeSum (dataItems (s lb)) + usedSizeSum (dataItems (s rb))
                        · rw [if_pos h12]; right
                          rw [ledger_nil lb rb (rsHeld s rb) (lsHeld s lb)
                                (rsHeld_reverse s rb) (lsHeld_reverse s lb)]
                        · rw [if_neg h12]
                          by_cases h13 : (dataItems (s lb)).length = 0
                          · rw [if_pos h13]; right
                            rw [ledger_nil lb rb (rsHeld s rb) (lsHeld s lb)
                                  (rsHeld_reverse s rb) (lsHeld_reverse s lb)]
                          · rw [if_neg h13]
                            by_cases h14 : liveEntries (s lb) = []
                            · rw [if_pos h14]; right
                              rw [ledger_nil lb rb (rsHeld s rb) (lsHeld s lb)
                                    (rsHeld_reverse s rb) (lsHeld_reverse s lb)]
                            · rw [if_neg h14]; left
                              refine ⟨⟨?_, ?_, ?_, ?_, ?_, ?_, ?_, ?_, ?_, ?_, ?_, ?_, h14⟩, rfl⟩
                              · exact Bool.eq_false_iff.mpr h1
                              · cases hx : (s lb).leaf <;> simp_all
                              · exact Bool.eq_false_iff.mpr h3
                              · exact Bool.eq_false_iff.mpr h4
                              · exact Bool.eq_false_iff.mpr h5
                              · cases hx : (s rb).leaf <;> simp_all
                              · exact Bool.eq_false_iff.mpr h7
                              · exact Bool.eq_false_iff.mpr h8
                              · exact not_ne_iff.mp h9
                              · tauto
                              · tauto
                              · exact Nat.le_of_not_lt h12

/-- A false return leaves the store untouched and the ledger empty. -/
theorem execMerge_fail_frame (s : Store) (lb rb : Nat)
    (h : (execMerge s lb rb).ok = false) :
    (execMerge s lb rb).store = s ∧ (execMerge s lb rb).held = [] := by
  rcases execMerge_spec s lb rb with ⟨_, he⟩ | he
  · rw [he] at h; exact absurd h (by simp [mergeSuccess])
  · rw [he]; exact ⟨rfl, rfl⟩

/-- A true return implies every validation passed. -/
theorem execMerge_ok_checks (s : Store) (lb rb : Nat)
    (h : (execMerge s lb rb).ok = true) : mergeChecksPass s lb rb := by
  rcases execMerge_spec s lb rb with ⟨hc, _⟩ | he
  · exact hc
  · rw [he] at h; exact absurd h (by simp)

/-- A true return means execute_merge ran exactly its critical
section. -/
theorem execMerge_eq_success_of_ok (s : Store) (lb rb : Nat)
    (h : (execMerge s lb rb).ok = true) : execMerge s lb rb = mergeSuccess s lb rb := by
  rcases execMerge_spec s lb rb with ⟨_, he⟩ | he
  · exact he
  · rw [he] at h; exact absurd h (by simp)

/-- Passing every validation rules out every enumerated precondition
violation. -/
theorem checks_not_violation (s : Store) (lb rb : Nat)
    (hc : mergeChecksPass s lb rb) : ¬ precondViolation s lb rb := by
  obtain ⟨c1, c2, c3, c4, c5, c6, c7, c8, c9, c10, c11, c12, -⟩ := hc
  intro hv
  rcases hv with hv | hv | hv | hv | hv | hv | hv | hv | hv | hv | hv | hv <;>
    first
      | simp_all
      | tauto
      | omega

/-- Any detected precondition violation makes execute_merge return
false, with the store untouched and every acquired lock released. -/
theorem violation_abort_core (s : Store) (lb rb : Nat)
    (h : precondViolation s lb rb) :
    (execMerge s lb rb).ok = false ∧
    (execMerge s lb rb).store = s ∧ (execMerge s lb rb).held = [] := by
  have hko : (execMerge s lb rb).ok = false := by
    rcases hok : (execMerge s lb rb).ok with _ | _
    · rfl
    · exact absurd h (checks_not_violation s lb rb (execMerge_ok_checks s lb rb hok))
  exact ⟨hko, execMerge_fail_frame s lb rb hko⟩

/-! Helper lemmas about the critical-section insertion loop. -/

/-- Appending one used slot grows the page's raw usage by its
footprint. -/
theorem pageUsedRaw_append (p : BTPage) (e : Entry) :
    pageUsedRaw { p with items := p.items ++ [some e] } =
      pageUsedRaw p + (MAXALIGN e.len + 4) := by
  simp [pageUsedRaw, itemFootprint]

/-- PageAddItem never changes btpo_next. -/
theorem pageAddItemEnd_next (p : BTPage) (e : Entry) (p1 : BTPage)
    (h : pageAddItemEnd p e = some p1) : p1.next = p.next := by
  unfold pageAddItemEnd at h
  split at h
  · injection h with h; rw [← h]
  · exact absurd h (by simp)

/-- The insertion loop never changes btpo_next. -/
theorem addLoop_next (p : BTPage) (es : List Entry) : (addLoop p es).1.next = p.next := by
  induction es generalizing p with
  | nil => rfl
  | cons e es ih =>
    unfold addLoop
    split
    next p1 heq =>
      show (addLoop p1 es).1.next = p.next
      rw [ih p1, pageAddItemEnd_next p e p1 heq]
    next heq => exact ih p

/-- When the entries' total footprint fits in the raw hole, every
PageAddItem in the loop succeeds and the entries are appended at the
end, in order. -/
theorem addLoop_items_of_fit (es : List Entry) (p : BTPage)
    (h : entriesFootprint es ≤ rawSpace p) :
    (addLoop p es).1.items = p.items ++ es.map some := by
  induction es generalizing p with
  | nil => simp [addLoop]
  | cons e es ih =>
    have hcons : entriesFootprint (e :: es) = (MAXALIGN e.len + 4) + entriesFootprint es := by
      simp [entriesFootprint]
    have hfe : MAXALIGN e.len + 4 ≤ rawSpace p := by omega
    have heq : pageAddItemEnd p e = some { p with items := p.items ++ [some e] } := by
      unfold pageAddItemEnd; rw [if_pos hfe]
    have hrest : entriesFootprint es ≤ rawSpace { p with items := p.items ++ [some e] } := by
      rw [rawSpace, pageUsedRaw_append]
      rw [rawSpace] at h hfe
      omega
    unfold addLoop
    rw [heq]
    show (addLoop { p with items := p.items ++ [some e] } es).1.items =
      p.items ++ (e :: es).map some
    rw [ih _ hrest]
    simp

/-- Wrapping entries in `some` and filtering them back is the
identity. -/
theorem filterMap_id_map_some (L : List Entry) : (L.map some).filterMap id = L := by
  induction L with
  | nil => rfl
  | cons e t ih => simp [List.filterMap_cons, ih]

/-- The merged right page's slots, when every append fits. -/
theorem mergedRight_items_of_fit (s : Store) (lb rb : Nat)
    (hfit : entriesFootprint (liveEntries (s lb)) ≤ rawSpace (s rb)) :
    (mergedRight s lb rb).items = (s rb).items ++ (liveEntries (s lb)).map some := by
  show (addLoop (s rb) (liveEntries (s lb))).1.items = _
  exact addLoop_items_of_fit _ _ hfit

/-- The merged right page keeps its btpo_next. -/
theorem mergedRight_next (s : Store) (lb rb : Nat) :
    (mergedRight s lb rb).next = (s rb).next := by
  show (addLoop (s rb) (liveEntries (s lb))).1.next = _
  exact addLoop_next _ _

/-- Live entries of the merged right page: its own entries followed by
the left page's, provided the page is well formed (a high key slot
exists when one is expected) and every append fits. -/
theorem liveEntries_mergedRight (s : Store) (lb rb : Nat)
    (hwf : firstDataIdx (s rb) ≤ (s rb).items.length)
    (hfit : entriesFootprint (liveEntries (s lb)) ≤ rawSpace (s rb)) :
    liveEntries (mergedRight s lb rb) = liveEntries (s rb) ++ liveEntries (s lb) := by
  have hfd : firstDataIdx (mergedRight s lb rb) = firstDataIdx (s rb) := by
    unfold firstDataIdx
    rw [mergedRight_next]
  calc liveEntries (mergedRight s lb rb)
      = ((mergedRight s lb rb).items.drop (firstDataIdx (mergedRight s lb rb))).filterMap id := rfl
    _ = (((s rb).items ++ (liveEntries (s lb)).map some).drop (firstDataIdx (s rb))).filterMap id := by
        rw [mergedRight_items_of_fit s lb rb hfit, hfd]
    _ = ((s rb).items.drop (firstDataIdx (s rb))).filterMap id ++
          ((liveEntries (s lb)).map some).filterMap id := by
        rw [List.drop_append_eq_append_drop, Nat.sub_eq_zero_of_le hwf, List.drop_zero,
          List.filterMap_append]
    _ = liveEntries (s rb) ++ liveEntries (s lb) := by
        rw [filterMap_id_map_some]
        rfl

/-- The committed store maps the right block to the merged right page
when the two blocks differ. -/
theorem mergeSuccess_store_right (s : Store) (lb rb : Nat) (hne : lb ≠ rb) :
    (mergeSuccess s lb rb).store rb = mergedRight s lb rb := by
  show (if rb = lb then _ else if rb = rb then _ else _) = _
  rw [if_neg (fun hh => hne hh.symm), if_pos rfl]

/-- On unsigned operands that do not wrap, Size subtraction is plain
subtraction. -/
theorem sizeSub_of_le (a b : Nat) (hb : b ≤ a) (ha : a < 2 ^ 64) : sizeSub a b = a - b := by
  unfold sizeSub
  rw [← Nat.cast_sub hb]
  rw [Int.emod_eq_of_lt (by positivity)
        (by exact_mod_cast lt_of_le_of_lt (Nat.sub_le a b) ha)]
  simp

/-! Helper lemmas about the execute entry point's candidate loop. -/

/-- Once merges_attempted is 1, the loop stops immediately. -/
theorem executeLoop_att_one (s : Store) (cands : List MergeCandidate) (m : Nat) (r : Int) :
    executeLoop s cands 1 m r = ⟨s, 1, m, r, []⟩ := by
  cases cands with
  | nil => rfl
  | cons c rest => unfold executeLoop; rw [if_pos (le_refl 1)]

/-- The candidate loop merges zero or one time and invokes the
executor on exactly the first candidate whose can_merge flag is true,
if any. -/
theorem executeLoop_spec (cands : List MergeCandidate) (s : Store) (r : Int) :
    ((executeLoop s cands 0 0 r).merged = 0 ∨ (executeLoop s cands 0 0 r).merged = 1) ∧
    (executeLoop s cands 0 0 r).invocations =
      ((cands.find? (fun c => c.can_merge)).map (fun c => (c.left_page, c.right_page))).toList := by
  induction cands generalizing s r with
  | nil => exact ⟨Or.inl rfl, rfl⟩
  | cons c rest ih =>
    by_cases hc : c.can_merge = true
    · unfold executeLoop
      rw [if_neg (by omega), if_pos hc, List.find?_cons_of_pos _ hc]
      rcases hok : (execMerge s c.left_page c.right_page).ok with _ | _ <;>
        simp [executeLoop_att_one, hok]
    · unfold executeLoop
      rw [if_neg (by omega), if_neg hc, List.find?_cons_of_neg _ (by simp [hc])]
      exact ih _ _

/-! Claim theorems. -/

/-- Claim C1, counterexample: on a concrete pair of leaves the merge
succeeds, yet the right page's resulting entry sequence is not the
left page's non-high-key entries followed by the right page's original
entries — the code appends the left entries at the end instead. -/
theorem merge_order_counterexample :
    (execMerge c1Store 1 2).ok = true ∧
    liveEntries ((execMerge c1Store 1 2).store 2) ≠
      liveEntries (c1Store 1) ++ liveEntries (c1Store 2) := by decide

/-- Claim C1, amended: after every successful merge of distinct,
well-formed pages in which every moved entry fits into the right
page's raw hole, the right page's entry sequence equals the right
page's original entries in original order followed by the left page's
non-high-key entries in original order. -/
theorem merge_appends_left_entries_after_right (s : Store) (lb rb : Nat)
    (hne : lb ≠ rb)
    (hwf : firstDataIdx (s rb) ≤ (s rb).items.length)
    (hfit : entriesFootprint (liveEntries (s lb)) ≤ rawSpace (s rb))
    (hok : (execMerge s lb rb).ok = true) :
    liveEntries ((execMerge s lb rb).store rb) =
      liveEntries (s rb) ++ liveEntries (s lb) := by
  rw [execMerge_eq_success_of_ok s lb rb hok, mergeSuccess_store_right s lb rb hne]
  exact liveEntries_mergedRight s lb rb hwf hfit

/-- Claim C1, witness: the amended theorem applied to the concrete
two-leaf store. -/
theorem merge_appends_left_entries_after_right_witness :
    ((1 : Nat) ≠ 2 ∧
     firstDataIdx (c1Store 2) ≤ (c1Store 2).items.length ∧
     entriesFootprint (liveEntries (c1Store 1)) ≤ rawSpace (c1Store 2) ∧
     (execMerge c1Store 1 2).ok = true) ∧
    liveEntries ((execMerge c1Store 1 2).store 2) =
      liveEntries (c1Store 2) ++ liveEntries (c1Store 1) :=
  ⟨⟨by decide, by decide, by decide, by decide⟩,
   merge_appends_left_entries_after_right c1Store 1 2 (by decide) (by decide)
     (by decide) (by decide)⟩

set_option maxRecDepth 8000 in
set_option maxHeartbeats 4000000 in
/-- Claim C2: on the failing input the merge returns true yet the
total live-entry count over all non-half-dead leaf pages drops from
501 to 454 — the capacity re-check ignores per-entry line-pointer
overhead, 47 PageAddItem calls fail inside the critical section, and
the multi-delete still removes every entry from the left page. -/
theorem merge_entry_loss_on_failing_input :
    (execMerge c2Store 1 2).ok = true ∧
    totalLiveEntries c2Store [1, 2, 3] = 501 ∧
    totalLiveEntries (execMerge c2Store 1 2).store [1, 2, 3] = 454 := by decide

/-- Claim C3, auxiliary non-termination step: once the scan reaches
the self-linked deleted page with one stat stored, no amount of fuel
lets it stop — the skip path neither increments total_pages nor can
reach P_NONE. -/
theorem scan_stuck_on_deleted_cycle (acc : List PageAnalysis) :
    ∀ fuel : Nat, scanLoop c3Store 4 2 1 acc fuel = none := by
  intro fuel
  induction fuel generalizing acc with
  | zero => rfl
  | succ n ih =>
    show scanLoop c3Store 4 2 1 acc (n + 1) = none
    unfold scanLoop
    norm_num [c3Store, leafPage, defPage]
    exact ih acc

/-- Claim C3: the leaf-level scan does not terminate on every index
state — started at the leftmost leaf of the 4-page index whose sibling
chain ends in a deleted self-cycle, it exhausts any fuel, because
skipped deleted pages are not counted against the page-count cap. -/
theorem scan_diverges_on_deleted_cycle :
    ∀ fuel : Nat, scanLoop c3Store 4 1 0 [] fuel = none := by
  intro fuel
  cases fuel with
  | zero => rfl
  | succ n =>
    unfold scanLoop
    norm_num [c3Store, leafPage, defPage]
    exact scan_stuck_on_deleted_cycle _ n

/-- Claim C4: every precondition violation the executor can detect
before its critical section — either page new, non-leaf, deleted or
half-dead, the right page's btpo_prev not the left block, a neighbour
sibling link mismatched, or insufficient space — makes execute_merge
return false with the buffer pool unchanged and the lock ledger empty;
a stale right-sibling link is the ninth disjunct. -/
theorem precondition_violation_soft_fail (s : Store) (lb rb : Nat)
    (h : precondViolation s lb rb) :
    (execMerge s lb rb).ok = false ∧
    (execMerge s lb rb).store = s ∧ (execMerge s lb rb).held = [] :=
  violation_abort_core s lb rb h

/-- Claim C4, witness: a store whose right page records btpo_prev = 7
instead of 1 (the stale-candidate scenario) aborts with no mutation. -/
theorem precondition_violation_soft_fail_witness :
    precondViolation c4Store 1 2 ∧
    ((execMerge c4Store 1 2).ok = false ∧
     (execMerge c4Store 1 2).store = c4Store ∧ (execMerge c4Store 1 2).held = []) :=
  ⟨by decide, precondition_violation_soft_fail c4Store 1 2 (by decide)⟩

/-- Claim C5: for a pair that survives every earlier skip (left page
not rightmost and readable, its current btpo_next found among the
stats, neither stat deleted or half-dead), the selector emits a
candidate exactly unless both usages strictly exceed
max_pct_to_merge. -/
theorem threshold_boundary (s : Store) (pages : List PageAnalysis) (maxPct : Int)
    (l r : PageAnalysis)
    (h1 : l.is_rightmost = false)
    (h2 : (s l.blockno).isNew = false)
    (h3 : (s l.blockno).next ≠ 0)
    (h4 : pages.find? (fun st => st.blockno == (s l.blockno).next) = some r)
    (h5 : l.is_deleted = false) (h6 : l.is_halfdead = false)
    (h7 : r.is_deleted = false) (h8 : r.is_halfdead = false) :
    (considerPair s pages maxPct l).isSome = true ↔
      ¬(l.usage_pct > (maxPct : ℚ) ∧ r.usage_pct > (maxPct : ℚ)) := by
  unfold considerPair
  simp only [h1, h2, h3, h4, h5, h6, h7, h8]
  by_cases hu : l.usage_pct > (maxPct : ℚ) ∧ r.usage_pct > (maxPct : ℚ)
  · simp [hu]
  · simp [hu]

/-- Claim C5, witness: with max_pct_to_merge = 50, a pair at exactly
50 percent usage each is emitted, and a pair at 51 percent each is
not. -/
theorem threshold_boundary_witness :
    (considerPair c5Store [c5LeftAt50, c5RightAt50] 50 c5LeftAt50).isSome = true ∧
    (considerPair c5Store [c5LeftAt51, c5RightAt51] 50 c5LeftAt51).isSome = false := by
  constructor
  · exact (threshold_boundary c5Store [c5LeftAt50, c5RightAt50] 50 c5LeftAt50 c5RightAt50
      (by decide) (by decide) (by decide) (by decide) (by decide) (by decide) (by decide)
      (by decide)).mpr (by decide)
  · have h := threshold_boundary c5Store [c5LeftAt51, c5RightAt51] 50 c5LeftAt51 c5RightAt51
      (by decide) (by decide) (by decide) (by decide) (by decide) (by decide) (by decide)
      (by decide)
    rcases hq : (considerPair c5Store [c5LeftAt51, c5RightAt51] 50 c5LeftAt51).isSome with _ | _
    · rfl
    · exact absurd (by decide : c5LeftAt51.usage_pct > ((50 : Int) : ℚ) ∧
        c5RightAt51.usage_pct > ((50 : Int) : ℚ)) (h.mp hq)

/-- Claim C6, counterexample: on a concrete emitted pair the code sets
can_merge to false while the claim's formula (available capacity
reduced by the right page's average entry size, not MAXALIGN of the
integer-division average) calls the pair feasible: combined 7328
exceeds 0.9 * (8152 - 16) = 7322.4 but not 0.9 * (8152 - 9.6). -/
theorem feasible_flag_counterexample :
    (considerPair storeC6 pagesC6 90 lstatC6).map (fun c => c.can_merge) = some false ∧
    feasibleClaimC6 lstatC6 rstatC6 := by
  constructor
  · decide
  · unfold feasibleClaimC6 lstatC6 rstatC6 usableCapacity MAXALIGN
    norm_num

/-- Claim C6, amended: for every emitted candidate, can_merge is true
exactly when ten times the combined used bytes is at most nine times
the usable capacity reduced — when the right page is not rightmost —
by MAXALIGN of the right page's average item size (used bytes over
item count, integer division; zero when the page has no items). -/
theorem feasible_flag_formula (s : Store) (pages : List PageAnalysis) (maxPct : Int)
    (l r : PageAnalysis) (c : MergeCandidate)
    (h4 : pages.find? (fun st => st.blockno == (s l.blockno).next) = some r)
    (hk : hkFootprint r ≤ usableCapacity)
    (hc : considerPair s pages maxPct l = some c) :
    (c.can_merge = true ↔
      10 * (l.used_space + r.used_space) ≤ 9 * (usableCapacity - hkFootprint r)) := by
  unfold considerPair at hc
  simp only [h4] at hc
  split at hc
  · exact absurd hc (by simp)
  · split at hc
    · exact absurd hc (by simp)
    · split at hc
      · exact absurd hc (by simp)
      · split at hc
        · exact absurd hc (by simp)
        · split at hc
          · exact absurd hc (by simp)
          · injection hc with hc
            rw [← hc]
            simp only [decide_eq_true_eq]
            rw [sizeSub_of_le _ _ hk (by decide)]

/-- Claim C6, witness: the amended formula applied to the concrete
counterexample candidate (both sides of the equivalence are false
there). -/
theorem feasible_flag_formula_witness :
    (considerPair storeC6 pagesC6 90 lstatC6 = some candC6 ∧
     hkFootprint rstatC6 ≤ usableCapacity) ∧
    (candC6.can_merge = true ↔
      10 * (lstatC6.used_space + rstatC6.used_space) ≤
        9 * (usableCapacity - hkFootprint rstatC6)) :=
  ⟨⟨by decide, by decide⟩,
   feasible_flag_formula storeC6 pagesC6 90 lstatC6 rstatC6 candC6
     (by decide) (by decide) (by decide)⟩

/-- Claim C7: both entry points reject max_pct_to_merge outside
[1,100] as a configuration error before taking the index lock and
before any analysis or merge work: the outcome records the error, no
index lock, and no executor invocations. -/
theorem param_range_rejected_before_work (env : IndexEnv) (maxPct : Int) (fuel : Nat)
    (h : maxPct < 1 ∨ 100 < maxPct) :
    pgIndexReclaimExecuteModel env maxPct fuel = ⟨.err .invalidParam, false, []⟩ ∧
    pgIndexReclaimAnalyzeModel env maxPct fuel = ⟨.err .invalidParam, false⟩ := by
  constructor
  · unfold pgIndexReclaimExecuteModel
    rw [if_pos h]
  · unfold pgIndexReclaimAnalyzeModel
    rw [if_pos h]

/-- Claim C7, witness: Execute rejects max_pct_to_merge = 0 and
Analyze rejects 101, both before any lock. -/
theorem param_range_rejected_before_work_witness :
    ((0 : Int) < 1 ∨ 100 < (0 : Int)) ∧
    pgIndexReclaimExecuteModel env7 0 5 = ⟨.err .invalidParam, false, []⟩ ∧
    pgIndexReclaimAnalyzeModel env7 101 5 = ⟨.err .invalidParam, false⟩ :=
  ⟨Or.inl (by norm_num),
   (param_range_rejected_before_work env7 0 5 (Or.inl (by norm_num))).1,
   (param_range_rejected_before_work env7 101 5 (Or.inr (by norm_num))).2⟩

/-- Claim C8: whenever the recomputed combined live-entry byte size of
both pages exceeds the right page's current free space, execute_merge
returns false with no mutation and no lock retained (the capacity
re-check is the twelfth disjunct of the precondition violations). -/
theorem capacity_recheck_aborts (s : Store) (lb rb : Nat)
    (h : pageGetFreeSpace (s rb) <
      usedSizeSum (dataItems (s lb)) + usedSizeSum (dataItems (s rb))) :
    (execMerge s lb rb).ok = false ∧
    (execMerge s lb rb).store = s ∧ (execMerge s lb rb).held = [] := by
  apply violation_abort_core
  unfold precondViolation
  tauto

/-- Claim C8, witness: a left page holding a 9000-byte entry cannot
fit into the right page's 8148 free bytes; the merge aborts cleanly. -/
theorem capacity_recheck_aborts_witness :
    pageGetFreeSpace (c8Store 2) <
      usedSizeSum (dataItems (c8Store 1)) + usedSizeSum (dataItems (c8Store 2)) ∧
    ((execMerge c8Store 1 2).ok = false ∧
     (execMerge c8Store 1 2).store = c8Store ∧ (execMerge c8Store 1 2).held = []) :=
  ⟨by decide, capacity_recheck_aborts c8Store 1 2 (by decide)⟩

/-- Claim C9: whenever the Execute entry point returns a result row,
pages_merged is 0 or 1, and the executor invocations are exactly the
first candidate of the analysis whose can_merge flag is true (none
when no candidate is feasible). -/
theorem at_most_one_merge (env : IndexEnv) (maxPct : Int) (fuel : Nat) (m : Nat) (sp : Int)
    (h : (pgIndexReclaimExecuteModel env maxPct fuel).result = .ok (m, sp)) :
    (m = 0 ∨ m = 1) ∧
    ∃ cands, analyzeIndexPages env.store env.numPages env.root maxPct fuel = some cands ∧
      (pgIndexReclaimExecuteModel env maxPct fuel).invocations =
        ((cands.find? (fun c => c.can_merge)).map
          (fun c => (c.left_page, c.right_page))).toList := by
  unfold pgIndexReclaimExecuteModel at h ⊢
  by_cases h1 : maxPct < 1 ∨ 100 < maxPct
  · rw [if_pos h1] at h; exact absurd h (by simp)
  · rw [if_neg h1] at h ⊢
    by_cases h2 : env.isBtree = false
    · rw [if_pos h2] at h; exact absurd h (by simp)
    · rw [if_neg h2] at h ⊢
      rcases ha : analyzeIndexPages env.store env.numPages env.root maxPct fuel with _ | cands
      · rw [ha] at h; exact absurd h (by simp)
      · rw [ha] at h
        have hm : (executeLoop env.store cands 0 0 0).merged = m := by
          have h2 := h
          simp only [EntryResult.ok.injEq, Prod.mk.injEq] at h2
          exact h2.1
        refine ⟨?_, cands, rfl, ?_⟩
        · rw [← hm]; exact (executeLoop_spec cands env.store 0).1
        · exact (executeLoop_spec cands env.store 0).2

/-- Claim C9, witness: on a metapage-only index the entry point
returns pages_merged = 0 and no executor invocation. -/
theorem at_most_one_merge_witness :
    (pgIndexReclaimExecuteModel env9 50 1).result = .ok (0, 0) ∧
    ((0 = 0 ∨ 0 = 1) ∧
     ∃ cands, analyzeIndexPages env9.store env9.numPages env9.root 50 1 = some cands ∧
       (pgIndexReclaimExecuteModel env9 50 1).invocations =
         ((cands.find? (fun c => c.can_merge)).map
           (fun c => (c.left_page, c.right_page))).toList) :=
  ⟨by decide, at_most_one_merge env9 50 1 0 0 (by decide)⟩

/-- Claim C10: a left page with zero live data entries (no slots at
all, or only unused slots) is never merged — execute_merge returns
false with the store untouched and no lock retained. -/
theorem empty_left_page_never_merged (s : Store) (lb rb : Nat)
    (h : liveEntries (s lb) = []) :
    (execMerge s lb rb).ok = false ∧
    (execMerge s lb rb).store = s ∧ (execMerge s lb rb).held = [] := by
  have hko : (execMerge s lb rb).ok = false := by
    rcases hok : (execMerge s lb rb).ok with _ | _
    · rfl
    · have hlast := (execMerge_ok_checks s lb rb hok).2.2.2.2.2.2.2.2.2.2.2.2
      exact absurd h hlast
  exact ⟨hko, execMerge_fail_frame s lb rb hko⟩

/-- Claim C10, witness: a left page whose only slot is its high key
has no live entries and is rejected with no mutation. -/
theorem empty_left_page_never_merged_witness :
    liveEntries (c10Store 1) = [] ∧
    ((execMerge c10Store 1 2).ok = false ∧
     (execMerge c10Store 1 2).store = c10Store ∧ (execMerge c10Store 1 2).held = []) :=
  ⟨by decide, empty_left_page_never_merged c10Store 1 2 (by decide)⟩

end PgIndexReclaim

